import Mathlib

/-!
Verification of the rufio-ts policy engine: a shallow embedding of the
config loading (config.ts), transcript indexing (transcript.ts), built-in
preset table (presets.ts) and check evaluation (checks/runner.ts) of the
repository, together with theorems settling the specification claims.

External effects are modelled explicitly: the filesystem, the process
working directory, the XDG config home, the YAML parse results of the
files on disk and the minimatch glob library are packaged in a `Sys`
value threaded through every function that the TypeScript performs I/O
in.  Strings are manipulated through char-list helpers mirroring the
node path / JS string primitives the code calls.
-/

namespace Rufio

/- ### String primitives (JS / node behaviour on forward-slash paths) -/

/-- Split a char list on a separator char; mirrors splitting a JS string. -/
def splitOnCharAux (c : Char) : List Char → List Char → List (List Char)
  | cur, [] => [cur.reverse]
  | cur, x :: xs =>
    if x == c then cur.reverse :: splitOnCharAux c [] xs
    else splitOnCharAux c (x :: cur) xs

/-- Split a char list on a separator char. -/
def splitOnChar (c : Char) (l : List Char) : List (List Char) :=
  splitOnCharAux c [] l

/-- JS `hay.includes(needle)`: substring containment. -/
def containsSub (hay needle : List Char) : Bool :=
  if needle.isPrefixOf hay then true
  else
    match hay with
    | [] => false
    | _ :: t => containsSub t needle

/-- JS `s.includes(pat)` on strings. -/
def strIncludes (s pat : String) : Bool := containsSub s.data pat.data

/-- JS `s.startsWith(pre)` on strings. -/
def strStartsWith (s pre : String) : Bool := pre.data.isPrefixOf s.data

/-- A single-quote character as a string (used by the error messages). -/
def squote : String := String.mk [Char.ofNat 39]

/- ### node:path (posix) model -/

/-- The non-empty `/`-separated segments of a path string. -/
def splitSegs (p : String) : List String :=
  ((splitOnChar '/' p.data).map String.mk).filter (fun s => s ≠ "")

/-- Normalize segments the way node resolves an absolute path: `.` is
dropped, `..` pops one segment (and is dropped at the root).  The
accumulator holds the result in reverse (deepest segment first). -/
def normSegsAux : List String → List String → List String
  | acc, [] => acc
  | acc, s :: rest =>
    if s = "." then normSegsAux acc rest
    else if s = ".." then normSegsAux acc.tail rest
    else normSegsAux (s :: acc) rest

/-- Reversed normalized segment list of a path string. -/
def normRevSegs (p : String) : List String := normSegsAux [] (splitSegs p)

/-- Render a reversed segment list as an absolute path string. -/
def renderRev (revSegs : List String) : String :=
  "/" ++ String.intercalate "/" revSegs.reverse

/-- Whether a path string is absolute. -/
def isAbs (p : String) : Bool := strStartsWith p "/"

/-- node `path.resolve(p)` against an absolute process cwd. -/
def resolveAbs (cwd p : String) : String :=
  if isAbs p then renderRev (normRevSegs p)
  else renderRev (normRevSegs (cwd ++ "/" ++ p))

/-- node `path.resolve(a, b)` against an absolute process cwd. -/
def resolve2 (cwd a b : String) : String :=
  if isAbs b then renderRev (normRevSegs b)
  else if isAbs a then renderRev (normRevSegs (a ++ "/" ++ b))
  else renderRev (normRevSegs (cwd ++ "/" ++ a ++ "/" ++ b))

/-- node `path.join(a, b)` as used by the code (first argument always an
absolute directory, so joining and normalizing coincide with resolving). -/
def joinP (a b : String) : String := renderRev (normRevSegs (a ++ "/" ++ b))

/-- Drop the longest common leading run of two segment lists. -/
def dropCommon : List String → List String → List String × List String
  | a :: as, b :: bs => if a = b then dropCommon as bs else (a :: as, b :: bs)
  | as, bs => (as, bs)

/-- node `path.relative(f, t)` against an absolute process cwd. -/
def relativeP (cwd f t : String) : String :=
  let fs := (normRevSegs (if isAbs f then f else cwd ++ "/" ++ f)).reverse
  let ts := (normRevSegs (if isAbs t then t else cwd ++ "/" ++ t)).reverse
  let p := dropCommon fs ts
  String.intercalate "/" (List.replicate p.1.length ".." ++ p.2)

/- ### Data model (config.ts) -/

/-- Conditions that trigger a check (`When` in config.ts). -/
structure When where
  paths_changed : String
  path_exists : Option String := none
deriving Repr, DecidableEq

/-- Actions required when a check triggers (`Then` in config.ts); a field
being `none` models the JS field being absent or null. -/
structure Then where
  ensure_commands : Option (List String) := none
  ensure_changed : Option (List String) := none
deriving Repr, DecidableEq

/-- A single check definition (`Check` in config.ts). -/
structure Check where
  name : String
  when : When
  «then» : Then
deriving Repr, DecidableEq

/-- Raw configuration structure as parsed from YAML (`RufioConfigRaw`). -/
structure RufioConfigRaw where
  presets : Option (List String) := none
  checks : Option (List Check) := none
deriving Repr, DecidableEq

/-- Resolved configuration (`RufioConfig`). -/
structure RufioConfig where
  checks : List Check
deriving Repr, DecidableEq

/-- Parsed config with its location (`LoadedConfig`). -/
structure LoadedConfig where
  config : RufioConfig
  configDir : String
  configPath : String
deriving Repr, DecidableEq

/-- The fixed config filename. -/
def CONFIG_FILENAME : String := "rufio-hooks.yaml"

/-- The explicit system context: everything the TypeScript reads from the
process environment, the filesystem, the YAML parser and the minimatch
library.  `files` lists the paths for which `existsSync` is true;
`yamlPresets` gives, per preset file path, the parsed `checks` field
(`none` for a null parse or an absent/`null` `checks` key); `yamlConfigs`
gives, per config file path, the parse result of the file contents. -/
structure Sys where
  cwd : String
  xdgConfigHome : String
  files : List String
  yamlPresets : List (String × Option (List Check))
  yamlConfigs : List (String × Option RufioConfigRaw)
  minimatch : String → String → Bool

/-- `existsSync` over the modelled filesystem. -/
def existsSync (sys : Sys) (p : String) : Bool := sys.files.contains p

/- ### Preset resolution (config.ts) -/

/-- The override path a preset name is looked up at:
`$XDG_CONFIG_HOME/rufio/presets/<name>.yaml`. -/
def presetPath (sys : Sys) (name : String) : String :=
  joinP (joinP (joinP sys.xdgConfigHome "rufio") "presets") (name ++ ".yaml")

/-- `loadXdgPreset`: reads and parses the preset file if it exists,
returning its `checks` (null/absent `checks` behaves as not found). -/
def loadXdgPreset (sys : Sys) (name : String) : Option (List Check) :=
  let p := presetPath sys name
  if existsSync sys p then (sys.yamlPresets.lookup p).getD none else none

/-- The `preset not found` error message thrown by `resolvePresets`. -/
def presetNotFoundMsg (configPath name path : String) : String :=
  "Invalid config at " ++ configPath ++ ": preset " ++ squote ++ name ++
    squote ++ " not found at " ++ path

/-- `resolvePresets`: resolves preset names, in order, from the XDG
override directory only; throws `preset not found` on the first name
whose override file is missing; concatenates the results in input order. -/
def resolvePresets (sys : Sys) (presetNames : List String)
    (configPath : String) : Except String (List Check) :=
  match presetNames with
  | [] => .ok []
  | name :: rest =>
    match loadXdgPreset sys name with
    | none => .error (presetNotFoundMsg configPath name (presetPath sys name))
    | some preset => (resolvePresets sys rest configPath).map (preset ++ ·)

/- ### Built-in preset table (presets.ts) -/

/-- Helper to construct Check objects (the `check` helper of presets.ts). -/
def check (name : String) (when : When) (thn : Then) : Check :=
  { name := name, when := when, «then» := thn }

/-- The `PRESETS` table of presets.ts (never consulted by config.ts). -/
def PRESETS : List (String × List Check) := [
  ("cargo", [
    check "cargo-checks" { paths_changed := "**/*.rs" }
      { ensure_commands := some ["cargo test", "cargo fmt", "cargo clippy"] },
    check "cargo-version-bump"
      { paths_changed := "**/*.rs", path_exists := some "package.nix" }
      { ensure_changed := some ["version.toml"] }]),
  ("meow", [
    check "meow-fmt" { paths_changed := "**/*.md" }
      { ensure_commands := some ["meow fmt"] }]),
  ("pnpm", [
    check "pnpm-checks" { paths_changed := "**/*.ts" }
      { ensure_commands := some ["pnpm lint", "pnpm typecheck", "pnpm test"] },
    check "pnpm-version-bump"
      { paths_changed := "**/*.ts", path_exists := some "package.nix" }
      { ensure_changed := some ["version.toml"] }]),
  ("ledger", [
    check "ledger-checks" { paths_changed := "**/*.ledger" }
      { ensure_commands := some ["hledger check", "folio validate"] }]),
  ("terraform", [
    check "terraform-checks" { paths_changed := "**/*.tf" }
      { ensure_commands := some ["tofu fmt", "tflint", "trivy config ."] }])]

/- ### Validation and loading (config.ts) -/

/-- JS truthiness of an optional string: present and non-empty. -/
def truthyStr : Option String → Bool
  | some s => s ≠ ""
  | none => false

/-- JS truthiness of an optional array: present (an empty array is truthy). -/
def truthyList : Option (List α) → Bool := Option.isSome

/-- Error message for a check missing its name. -/
def missingNameMsg (configPath : String) : String :=
  "Invalid config at " ++ configPath ++ ": check missing " ++ squote ++
    "name" ++ squote

/-- Error message for a check missing `when.paths_changed`. -/
def missingTriggerMsg (configPath name : String) : String :=
  "Invalid config at " ++ configPath ++ ": check " ++ squote ++ name ++
    squote ++ " missing " ++ squote ++ "when.paths_changed" ++ squote

/-- Error message for a check with neither obligation field present. -/
def missingObligationMsg (configPath name : String) : String :=
  "Invalid config at " ++ configPath ++ ": check " ++ squote ++ name ++
    squote ++ " must have " ++ squote ++ "then.ensure_commands" ++ squote ++
    " or " ++ squote ++ "then.ensure_changed" ++ squote

/-- Error message for a check with both obligation fields present. -/
def conflictingObligationMsg (configPath name : String) : String :=
  "Invalid config at " ++ configPath ++ ": check " ++ squote ++ name ++
    squote ++ " cannot have both " ++ squote ++ "then.ensure_commands" ++
    squote ++ " and " ++ squote ++ "then.ensure_changed" ++ squote

/-- Error message for a config defining no checks. -/
def noChecksMsg (configPath : String) : String :=
  "Invalid config at " ++ configPath ++ ": no checks defined (add " ++
    squote ++ "presets" ++ squote ++ " or " ++ squote ++ "checks" ++
    squote ++ ")"

/-- `validateCheck` of config.ts, with the thrown error as the result;
`none` means the check is valid.  (The `then` field is required by the
`Check` interface, so the runtime `!check.then` branch has no
counterpart in the typed model.) -/
def validateCheck (check : Check) (configPath : String) : Option String :=
  if check.name = "" then some (missingNameMsg configPath)
  else if check.when.paths_changed = "" then
    some (missingTriggerMsg configPath check.name)
  else if !truthyList check.«then».ensure_commands &&
      !truthyList check.«then».ensure_changed then
    some (missingObligationMsg configPath check.name)
  else if truthyList check.«then».ensure_commands &&
      truthyList check.«then».ensure_changed then
    some (conflictingObligationMsg configPath check.name)
  else none

/-- `loadConfig` of config.ts: parse, resolve presets, merge (presets
first), require at least one check, then validate the user checks in
order, throwing the first validation error. -/
def loadConfig (sys : Sys) (configPath : String) : Except String RufioConfig := do
  let parsed := (sys.yamlConfigs.lookup configPath).getD none
  let presetChecks ← match parsed.bind (·.presets) with
    | some names => resolvePresets sys names configPath
    | none => .ok []
  let userChecks := (parsed.bind (·.checks)).getD []
  let mergedChecks := presetChecks ++ userChecks
  if mergedChecks.length = 0 then .error (noChecksMsg configPath)
  else
    match userChecks.findSome? (fun c => validateCheck c configPath) with
    | some e => .error e
    | none => .ok { checks := mergedChecks }

/- ### Config discovery (config.ts) -/

/-- The while loop of `findNearestConfig`, on the reversed segment list of
the current directory: while the directory string starts with the
resolved repo root, look for the config file there, then step to the
parent; at `/` the parent equals the directory and the loop breaks. -/
def findNearestGo (sys : Sys) (root : String) :
    List String → Except String (Option LoadedConfig)
  | [] =>
    if strStartsWith "/" root then
      let configPath := joinP "/" CONFIG_FILENAME
      if existsSync sys configPath then
        (loadConfig sys configPath).map (fun c => some ⟨c, "/", configPath⟩)
      else .ok none
    else .ok none
  | s :: rest =>
    let currentDir := renderRev (s :: rest)
    if strStartsWith currentDir root then
      let configPath := joinP currentDir CONFIG_FILENAME
      if existsSync sys configPath then
        (loadConfig sys configPath).map
          (fun c => some ⟨c, currentDir, configPath⟩)
      else findNearestGo sys root rest
    else .ok none

/-- `findNearestConfig` of config.ts: resolve the file path and the repo
root, start at the file's directory, and walk upward per `findNearestGo`. -/
def findNearestConfig (sys : Sys) (filePath repoRoot : String) :
    Except String (Option LoadedConfig) :=
  let absoluteFilePath := resolveAbs sys.cwd filePath
  let absoluteRepoRoot := resolveAbs sys.cwd repoRoot
  findNearestGo sys absoluteRepoRoot ((splitSegs absoluteFilePath).reverse.tail)

/- ### File grouping (config.ts) -/

/-- A group of changed files governed by one config. -/
structure Group where
  loaded : LoadedConfig
  files : List String
deriving Repr, DecidableEq

/-- Insert a file into the JS `Map`: append to an existing entry (keeping
its position and its originally stored config) or push a new entry last. -/
def addToGroups (groups : List (String × Group)) (key : String)
    (loaded : LoadedConfig) (file : String) : List (String × Group) :=
  match groups with
  | [] => [(key, ⟨loaded, [file]⟩)]
  | (k, g) :: rest =>
    if k = key then (k, ⟨g.loaded, g.files ++ [file]⟩) :: rest
    else (k, g) :: addToGroups rest key loaded file

/-- `groupFilesByConfig` of config.ts: bucket each changed file by its
nearest config (insertion order of first file encountered); files with no
governing config are dropped. -/
def groupFilesByConfig (sys : Sys) (changedFiles : List String)
    (repoRoot : String) : Except String (List (String × Group)) :=
  changedFiles.foldlM
    (fun groups file => do
      match ← findNearestConfig sys (joinP repoRoot file) repoRoot with
      | none => pure groups
      | some loaded => pure (addToGroups groups loaded.configPath loaded file))
    []

/- ### Action log (transcript.ts) -/

/-- A tool event extracted from the session transcript (`ToolEvent`). -/
structure ToolEvent where
  toolName : String
  command : Option String := none
  filePath : Option String := none
  index : Int
deriving Repr, DecidableEq

/-- The per-event condition of `findLastEditIndex`: an Edit/Write event
whose (truthy) filePath satisfies the matcher. -/
def matchesEdit (fileMatcher : String → Bool) (e : ToolEvent) : Bool :=
  (e.toolName == "Edit" || e.toolName == "Write") &&
    (match e.filePath with
     | some p => !(p == "") && fileMatcher p
     | none => false)

/-- `findLastEditIndex` of transcript.ts: index of the last Edit/Write
event matching the predicate, `-1` if none. -/
def findLastEditIndex (events : List ToolEvent)
    (fileMatcher : String → Bool) : Int :=
  events.foldl (fun lastIndex e =>
    if matchesEdit fileMatcher e then e.index else lastIndex) (-1)

/-- `wasCommandRunAfter` of transcript.ts: some Bash event with a truthy
command, position strictly after `afterIndex`, containing one of the
patterns as a substring. -/
def wasCommandRunAfter (events : List ToolEvent) (patterns : List String)
    (afterIndex : Int) : Bool :=
  events.any fun event =>
    event.toolName == "Bash" &&
      (match event.command with
       | some c => !(c == "") && decide (afterIndex < event.index) &&
           patterns.any (fun pattern => strIncludes c pattern)
       | none => false)

/- ### Check evaluation (checks/runner.ts) -/

/-- Result of running checks (`CheckResult`). -/
structure CheckResult where
  error : Option String
  checkName : Option String := none
deriving Repr, DecidableEq

/-- Error message of `checkCommands`. -/
def commandsErrMsg (check : Check) (missingCommands : List String) : String :=
  "Check " ++ squote ++ check.name ++ squote ++
    " failed: these commands must run after editing " ++
    check.when.paths_changed ++ ": " ++
    String.intercalate ", " missingCommands

/-- Error message of `checkEnsureChanged`. -/
def changedErrMsg (check : Check) (paths : List String) : String :=
  "Check " ++ squote ++ check.name ++ squote ++
    " failed: one of these files must be changed when editing " ++
    check.when.paths_changed ++ ": " ++ String.intercalate ", " paths

/-- `checkCommands` of runner.ts: collect every required command pattern
with no qualifying Bash event after the last edit; fail listing them all. -/
def checkCommands (check : Check) (toolEvents : List ToolEvent)
    (lastEditIndex : Int) : CheckResult :=
  let commands := check.«then».ensure_commands.getD []
  let missingCommands := commands.filter
    (fun command => !wasCommandRunAfter toolEvents [command] lastEditIndex)
  if missingCommands.length > 0 then
    { error := some (commandsErrMsg check missingCommands),
      checkName := some check.name }
  else { error := none }

/-- `checkEnsureChanged` of runner.ts: pass iff some required path,
resolved against the config dir, equals the resolved path of some
Edit/Write event of the session. -/
def checkEnsureChanged (sys : Sys) (check : Check)
    (toolEvents : List ToolEvent) (configDir : String) : CheckResult :=
  let paths := check.«then».ensure_changed.getD []
  let editedPaths :=
    ((toolEvents.filter
        (fun e => e.toolName == "Edit" || e.toolName == "Write")).filterMap
      (·.filePath)).filter (fun p => p ≠ "")
  if paths.any (fun requiredPath =>
      editedPaths.any (fun editedPath =>
        resolveAbs sys.cwd editedPath == resolve2 sys.cwd configDir requiredPath)) then
    { error := none }
  else
    { error := some (changedErrMsg check paths), checkName := some check.name }

/-- The `path_exists` gate of `runSingleCheck`: the rule is skipped when
the field is truthy and the joined path is absent from the filesystem. -/
def pathExistsGateFails (sys : Sys) (check : Check) (configDir : String) : Bool :=
  match check.when.path_exists with
  | some p => !(p == "") && !existsSync sys (joinP configDir p)
  | none => false

/-- The changed files of the group whose path relative to the config dir
matches the trigger glob (files escaping the config dir never match). -/
def matchingFilesOf (sys : Sys) (check : Check) (configDir : String)
    (changedFiles : List String) (repoRoot : String) : List String :=
  changedFiles.filter fun file =>
    let absoluteFile := joinP repoRoot file
    let relativeToConfig := relativeP sys.cwd configDir absoluteFile
    !strStartsWith relativeToConfig ".." &&
      sys.minimatch relativeToConfig check.when.paths_changed

/-- The `globMatcher` closure of `runSingleCheck`, applied to event paths. -/
def globMatcher (sys : Sys) (configDir pattern : String) (path : String) : Bool :=
  let relativeToConfig := relativeP sys.cwd configDir path
  if strStartsWith relativeToConfig ".." then false
  else sys.minimatch relativeToConfig pattern

/-- `runSingleCheck` of runner.ts. -/
def runSingleCheck (sys : Sys) (check : Check) (loaded : LoadedConfig)
    (changedFiles : List String) (toolEvents : List ToolEvent)
    (repoRoot : String) : CheckResult :=
  let configDir := loaded.configDir
  if pathExistsGateFails sys check configDir then { error := none }
  else
    let matchingFiles := matchingFilesOf sys check configDir changedFiles repoRoot
    if matchingFiles.length = 0 then { error := none }
    else
      let lastEditIndex := findLastEditIndex toolEvents
        (globMatcher sys configDir check.when.paths_changed)
      if lastEditIndex = -1 then { error := none }
      else if check.«then».ensure_commands.isSome then
        checkCommands check toolEvents lastEditIndex
      else if check.«then».ensure_changed.isSome then
        checkEnsureChanged sys check toolEvents configDir
      else { error := none }

/-- The rule loop of `runConfigChecks`: first failing check wins. -/
def runChecksList (sys : Sys) (loaded : LoadedConfig)
    (changedFiles : List String) (toolEvents : List ToolEvent)
    (repoRoot : String) : List Check → CheckResult
  | [] => { error := none }
  | c :: rest =>
    let result := runSingleCheck sys c loaded changedFiles toolEvents repoRoot
    if result.error.isSome then result
    else runChecksList sys loaded changedFiles toolEvents repoRoot rest

/-- `runConfigChecks` of runner.ts. -/
def runConfigChecks (sys : Sys) (loaded : LoadedConfig)
    (changedFiles : List String) (toolEvents : List ToolEvent)
    (repoRoot : String) : CheckResult :=
  runChecksList sys loaded changedFiles toolEvents repoRoot loaded.config.checks

/-- The group loop of `runChecks`: first failing group wins. -/
def runGroups (sys : Sys) (toolEvents : List ToolEvent) (repoRoot : String) :
    List (String × Group) → Option String
  | [] => none
  | (_, g) :: rest =>
    match (runConfigChecks sys g.loaded g.files toolEvents repoRoot).error with
    | some e => some e
    | none => runGroups sys toolEvents repoRoot rest

/-- `runChecks` of runner.ts: group the changed files by config and return
the first error across groups, or none. -/
def runChecks (sys : Sys) (changedFiles : List String)
    (toolEvents : List ToolEvent) (repoRoot : String) :
    Except String (Option String) := do
  let groups ← groupFilesByConfig sys changedFiles repoRoot
  pure (runGroups sys toolEvents repoRoot groups)

/- ### Helper lemmas about the transcript scan -/

/-- The fold of `findLastEditIndex` keeps its accumulator over a stretch of
events none of which is a matching edit. -/
theorem foldl_lastEdit_no_match (m : String → Bool) (events : List ToolEvent)
    (acc : Int) (h : ∀ e ∈ events, matchesEdit m e = false) :
    events.foldl
      (fun lastIndex e => if matchesEdit m e then e.index else lastIndex) acc
      = acc := by
  induction events generalizing acc with
  | nil => rfl
  | cons e rest ih =>
    have he : matchesEdit m e = false := h e (List.mem_cons_self e rest)
    simp only [List.foldl_cons, he, if_neg]
    exact ih acc fun x hx => h x (List.mem_cons_of_mem e hx)

/-- `findLastEditIndex` returns the index of the last matching edit of the
log: the event `te` when the log decomposes as `pre ++ te :: post` with
`te` matching and nothing in `post` matching. -/
theorem findLastEditIndex_last (m : String → Bool) (pre post : List ToolEvent)
    (te : ToolEvent) (hte : matchesEdit m te = true)
    (hpost : ∀ e ∈ post, matchesEdit m e = false) :
    findLastEditIndex (pre ++ te :: post) m = te.index := by
  unfold findLastEditIndex
  rw [List.foldl_append, List.foldl_cons]
  simp only [hte, if_pos]
  exact foldl_lastEdit_no_match m post te.index hpost

/-- If no event of the log is a matching edit, `findLastEditIndex` is `-1`. -/
theorem findLastEditIndex_none (m : String → Bool) (events : List ToolEvent)
    (h : ∀ e ∈ events, matchesEdit m e = false) :
    findLastEditIndex events m = -1 :=
  foldl_lastEdit_no_match m events (-1) h

/-- `wasCommandRunAfter` with a single pattern holds exactly when some Bash
event of the log carries a non-empty command containing the pattern as a
substring and sits strictly after `afterIndex`. -/
theorem wasCommandRunAfter_one (events : List ToolEvent) (pat : String)
    (i : Int) :
    wasCommandRunAfter events [pat] i = true ↔
      ∃ e ∈ events, e.toolName = "Bash" ∧ ∃ c, e.command = some c ∧ c ≠ "" ∧
        strIncludes c pat = true ∧ i < e.index := by
  simp only [wasCommandRunAfter, List.any_eq_true]
  constructor
  · rintro ⟨e, he, hb⟩
    refine ⟨e, he, ?_⟩
    cases hc : e.command with
    | none => rw [hc] at hb; simp at hb
    | some c =>
      rw [hc] at hb
      simp only [Bool.and_eq_true, beq_iff_eq, Bool.not_eq_true',
        decide_eq_true_eq, List.any_cons, List.any_nil, Bool.or_false,
        beq_eq_false_iff_ne, ne_eq] at hb
      exact ⟨hb.1, c, rfl, hb.2.1.1, hb.2.2, hb.2.1.2⟩
  · rintro ⟨e, he, hn, c, hc, hne, hinc, hlt⟩
    refine ⟨e, he, ?_⟩
    rw [hc]
    simp only [Bool.and_eq_true, beq_iff_eq, Bool.not_eq_true',
      decide_eq_true_eq, List.any_cons, List.any_nil, Bool.or_false,
      beq_eq_false_iff_ne, ne_eq]
    exact ⟨hn, ⟨hne, hlt⟩, hinc⟩

/-- Outcome of `checkCommands` for a rule declaring `ensure_commands`:
passes iff every pattern has a qualifying command, and on failure the
message lists every missing pattern. -/
theorem checkCommands_spec (check : Check) (evs : List ToolEvent) (i : Int)
    (cmds : List String) (hcmds : check.«then».ensure_commands = some cmds) :
    ((checkCommands check evs i).error = none ↔
      ∀ pat ∈ cmds, wasCommandRunAfter evs [pat] i = true) ∧
    ((checkCommands check evs i).error ≠ none →
      (checkCommands check evs i).error = some (commandsErrMsg check
        (cmds.filter (fun pat => !wasCommandRunAfter evs [pat] i)))) := by
  simp only [checkCommands, hcmds, Option.getD_some]
  by_cases hm : (cmds.filter
      (fun pat => !wasCommandRunAfter evs [pat] i)).length > 0
  · rw [if_pos hm]
    constructor
    · simp only [reduceCtorEq, false_iff, not_forall]
      have hne : cmds.filter (fun pat => !wasCommandRunAfter evs [pat] i) ≠ [] := by
        intro h0
        rw [h0] at hm
        simp at hm
      obtain ⟨pat, hmem⟩ := List.exists_mem_of_ne_nil _ hne
      have := List.of_mem_filter hmem
      exact ⟨pat, List.mem_of_mem_filter hmem, by simpa using this⟩
    · intro _
      rfl
  · rw [if_neg hm]
    constructor
    · simp only [true_iff]
      intro pat hpat
      by_contra hw
      have hmem : pat ∈ cmds.filter (fun pat => !wasCommandRunAfter evs [pat] i) := by
        refine List.mem_filter.mpr ⟨hpat, ?_⟩
        simpa using hw
      have : 0 < (cmds.filter (fun pat => !wasCommandRunAfter evs [pat] i)).length :=
        List.length_pos.mpr (List.ne_nil_of_mem hmem)
      exact hm this
    · intro h
      exact absurd rfl h

/-- When the `path_exists` gate passes, some group file matches the glob,
and the last matching session edit sits at index `i ≠ -1`, a rule with an
`ensure_commands` obligation reduces to `checkCommands`. -/
theorem runSingleCheck_commands (sys : Sys) (check : Check)
    (loaded : LoadedConfig) (changedFiles : List String)
    (toolEvents : List ToolEvent) (repoRoot : String) (i : Int)
    (hgate : pathExistsGateFails sys check loaded.configDir = false)
    (hmatch : (matchingFilesOf sys check loaded.configDir changedFiles
      repoRoot).length ≠ 0)
    (hlast : findLastEditIndex toolEvents
      (globMatcher sys loaded.configDir check.when.paths_changed) = i)
    (hne : i ≠ -1)
    (hcmds : check.«then».ensure_commands.isSome = true) :
    runSingleCheck sys check loaded changedFiles toolEvents repoRoot =
      checkCommands check toolEvents i := by
  simp only [runSingleCheck, hgate, Bool.false_eq_true, if_false, hlast, hcmds,
    if_true]
  rw [if_neg hmatch, if_neg hne]

/-- When the `path_exists` gate passes, some group file matches the glob,
the last matching session edit exists, and the rule declares only an
`ensure_changed` obligation, `runSingleCheck` reduces to
`checkEnsureChanged`. -/
theorem runSingleCheck_changed (sys : Sys) (check : Check)
    (loaded : LoadedConfig) (changedFiles : List String)
    (toolEvents : List ToolEvent) (repoRoot : String)
    (hgate : pathExistsGateFails sys check loaded.configDir = false)
    (hmatch : (matchingFilesOf sys check loaded.configDir changedFiles
      repoRoot).length ≠ 0)
    (hlast : findLastEditIndex toolEvents
      (globMatcher sys loaded.configDir check.when.paths_changed) ≠ -1)
    (hnocmds : check.«then».ensure_commands = none)
    (hch : check.«then».ensure_changed.isSome = true) :
    runSingleCheck sys check loaded changedFiles toolEvents repoRoot =
      checkEnsureChanged sys check toolEvents loaded.configDir := by
  simp only [runSingleCheck, hgate, Bool.false_eq_true, if_false, hnocmds,
    Option.isSome_none, hch, if_true]
  rw [if_neg hmatch, if_neg hlast]

/- ### Claim theorems -/

/-- C2: for a rule with an `ensure_commands` obligation that fires
(`path_exists` gate satisfied, some group file matches the glob, and
`te` is the last Edit/Write event of the session matching the glob, at
an index distinct from the `-1` sentinel), the rule passes iff every
required pattern has some Bash command event containing it as a
substring strictly after `te`; on failure the message lists the rule
name, the triggering glob and every missing pattern. -/
theorem C2_ensure_commands (sys : Sys) (check : Check) (loaded : LoadedConfig)
    (changedFiles : List String) (repoRoot : String) (cmds : List String)
    (pre post : List ToolEvent) (te : ToolEvent)
    (hgate : pathExistsGateFails sys check loaded.configDir = false)
    (hmatch : (matchingFilesOf sys check loaded.configDir changedFiles
      repoRoot).length ≠ 0)
    (hcmds : check.«then».ensure_commands = some cmds)
    (hte : matchesEdit (globMatcher sys loaded.configDir
      check.when.paths_changed) te = true)
    (hpost : ∀ e ∈ post, matchesEdit (globMatcher sys loaded.configDir
      check.when.paths_changed) e = false)
    (hidx : te.index ≠ -1) :
    ((runSingleCheck sys check loaded changedFiles (pre ++ te :: post)
        repoRoot).error = none ↔
      ∀ pat ∈ cmds, ∃ e ∈ pre ++ te :: post, e.toolName = "Bash" ∧
        ∃ c, e.command = some c ∧ c ≠ "" ∧ strIncludes c pat = true ∧
          te.index < e.index) ∧
    ((runSingleCheck sys check loaded changedFiles (pre ++ te :: post)
        repoRoot).error ≠ none →
      (runSingleCheck sys check loaded changedFiles (pre ++ te :: post)
        repoRoot).error = some (commandsErrMsg check (cmds.filter
          (fun pat => !wasCommandRunAfter (pre ++ te :: post) [pat]
            te.index)))) := by
  have hlast : findLastEditIndex (pre ++ te :: post)
      (globMatcher sys loaded.configDir check.when.paths_changed) = te.index :=
    findLastEditIndex_last _ pre post te hte hpost
  rw [runSingleCheck_commands sys check loaded changedFiles _ repoRoot te.index
    hgate hmatch hlast hidx (by rw [hcmds]; rfl)]
  obtain ⟨h1, h2⟩ := checkCommands_spec check (pre ++ te :: post) te.index cmds hcmds
  refine ⟨?_, h2⟩
  rw [h1]
  constructor
  · intro h pat hpat
    exact (wasCommandRunAfter_one _ pat te.index).mp (h pat hpat)
  · intro h pat hpat
    exact (wasCommandRunAfter_one _ pat te.index).mpr (h pat hpat)

/-- C5: a rule whose trigger has `path_exists` set to a (non-empty) path
that, joined to the config directory, is absent from the filesystem never
produces a failure, whatever the changed files and the action log. -/
theorem C5_path_exists_gate (sys : Sys) (check : Check)
    (loaded : LoadedConfig) (changedFiles : List String)
    (toolEvents : List ToolEvent) (repoRoot : String) (p : String)
    (hp : check.when.path_exists = some p) (hne : p ≠ "")
    (habs : existsSync sys (joinP loaded.configDir p) = false) :
    (runSingleCheck sys check loaded changedFiles toolEvents
      repoRoot).error = none := by
  have hgate : pathExistsGateFails sys check loaded.configDir = true := by
    simp [pathExistsGateFails, hp, hne, habs]
  simp [runSingleCheck, hgate]

/-- C7: when no Edit/Write event of the full action log has a path that
(made relative to the config directory) matches the rule's glob, the rule
is skipped with no failure, even if the glob matches a changed file of
the group: a file dirty on disk but never edited in the session never
triggers an obligation. -/
theorem C7_no_session_edit (sys : Sys) (check : Check)
    (loaded : LoadedConfig) (changedFiles : List String)
    (toolEvents : List ToolEvent) (repoRoot : String)
    (hmatch : (matchingFilesOf sys check loaded.configDir changedFiles
      repoRoot).length ≠ 0)
    (hnoedit : ∀ e ∈ toolEvents, matchesEdit (globMatcher sys
      loaded.configDir check.when.paths_changed) e = false) :
    (runSingleCheck sys check loaded changedFiles toolEvents
      repoRoot).error = none := by
  have hlast : findLastEditIndex toolEvents
      (globMatcher sys loaded.configDir check.when.paths_changed) = -1 :=
    findLastEditIndex_none _ toolEvents hnoedit
  simp [runSingleCheck, hlast]

/-- C6: for a rule with an `ensure_changed` obligation that fires, the
rule passes iff at least one required relative path, resolved against the
config directory, equals the resolved path of some Edit/Write event
anywhere in the session (position relative to the triggering edit is
irrelevant); on failure the message names the rule, the triggering glob
and the full candidate path list. -/
theorem C6_ensure_changed (sys : Sys) (check : Check) (loaded : LoadedConfig)
    (changedFiles : List String) (toolEvents : List ToolEvent)
    (repoRoot : String) (ps : List String)
    (hgate : pathExistsGateFails sys check loaded.configDir = false)
    (hmatch : (matchingFilesOf sys check loaded.configDir changedFiles
      repoRoot).length ≠ 0)
    (hnocmds : check.«then».ensure_commands = none)
    (hch : check.«then».ensure_changed = some ps)
    (hlast : findLastEditIndex toolEvents
      (globMatcher sys loaded.configDir check.when.paths_changed) ≠ -1) :
    ((runSingleCheck sys check loaded changedFiles toolEvents
        repoRoot).error = none ↔
      ∃ p ∈ ps, ∃ e ∈ toolEvents,
        (e.toolName = "Edit" ∨ e.toolName = "Write") ∧
        ∃ q, e.filePath = some q ∧ q ≠ "" ∧
          resolveAbs sys.cwd q = resolve2 sys.cwd loaded.configDir p) ∧
    ((runSingleCheck sys check loaded changedFiles toolEvents
        repoRoot).error ≠ none →
      runSingleCheck sys check loaded changedFiles toolEvents repoRoot =
        { error := some (changedErrMsg check ps),
          checkName := some check.name }) := by
  rw [runSingleCheck_changed sys check loaded changedFiles toolEvents repoRoot
    hgate hmatch hlast hnocmds (by rw [hch]; rfl)]
  simp only [checkEnsureChanged, hch, Option.getD_some]
  have hcond_iff : (ps.any (fun requiredPath =>
      (((toolEvents.filter (fun e =>
          e.toolName == "Edit" || e.toolName == "Write")).filterMap
        (·.filePath)).filter (fun p => p ≠ "")).any (fun editedPath =>
          resolveAbs sys.cwd editedPath ==
            resolve2 sys.cwd loaded.configDir requiredPath))) = true ↔
      ∃ p ∈ ps, ∃ e ∈ toolEvents,
        (e.toolName = "Edit" ∨ e.toolName = "Write") ∧
        ∃ q, e.filePath = some q ∧ q ≠ "" ∧
          resolveAbs sys.cwd q = resolve2 sys.cwd loaded.configDir p := by
    simp only [List.any_eq_true, List.mem_filter, List.mem_filterMap,
      Bool.or_eq_true, beq_iff_eq, decide_eq_true_eq, ne_eq]
    constructor
    · rintro ⟨p, hp, q, ⟨⟨e, ⟨he, hew⟩, hq⟩, hqne⟩, heq⟩
      exact ⟨p, hp, e, he, hew, q, hq, hqne, heq⟩
    · rintro ⟨p, hp, e, he, hew, q, hq, hqne, heq⟩
      exact ⟨p, hp, q, ⟨⟨e, ⟨he, hew⟩, hq⟩, hqne⟩, heq⟩
  constructor
  · rw [← hcond_iff]
    split
    · next hcond => simp only [true_iff]; exact hcond
    · next hcond =>
      simp only [reduceCtorEq, false_iff]
      simpa using hcond
  · split
    · intro h
      exact absurd rfl h
    · intro _
      rfl

/-- C9: an empty obligation list is accepted by validation (only absence
is rejected); when such a rule fires, an empty `ensure_commands` list
trivially passes while an empty `ensure_changed` list unconditionally
fails with a message listing no candidate paths. -/
theorem C9_empty_obligations (sys : Sys) (check : Check)
    (loaded : LoadedConfig) (changedFiles : List String)
    (toolEvents : List ToolEvent) (repoRoot : String) (cp : String)
    (hname : check.name ≠ "") (hpc : check.when.paths_changed ≠ "")
    (hgate : pathExistsGateFails sys check loaded.configDir = false)
    (hmatch : (matchingFilesOf sys check loaded.configDir changedFiles
      repoRoot).length ≠ 0)
    (hlast : findLastEditIndex toolEvents
      (globMatcher sys loaded.configDir check.when.paths_changed) ≠ -1) :
    (check.«then».ensure_commands = some [] →
      check.«then».ensure_changed = none →
      validateCheck check cp = none ∧
      (runSingleCheck sys check loaded changedFiles toolEvents
        repoRoot).error = none) ∧
    (check.«then».ensure_commands = none →
      check.«then».ensure_changed = some [] →
      validateCheck check cp = none ∧
      runSingleCheck sys check loaded changedFiles toolEvents repoRoot =
        { error := some (changedErrMsg check []),
          checkName := some check.name }) := by
  constructor
  · intro hec hech
    constructor
    · simp [validateCheck, hname, hpc, truthyList, hec, hech]
    · rw [runSingleCheck_commands sys check loaded changedFiles toolEvents
        repoRoot _ hgate hmatch rfl hlast (by rw [hec]; rfl)]
      simp [checkCommands, hec]
  · intro hec hech
    constructor
    · simp [validateCheck, hname, hpc, truthyList, hec, hech]
    · rw [runSingleCheck_changed sys check loaded changedFiles toolEvents
        repoRoot hgate hmatch hlast hec (by rw [hech]; rfl)]
      simp [checkEnsureChanged, hech]

/-- C10: an action event with no payload (no resolved command text and no
resolved file path) is inert in every obligation check: it is never
selected as the triggering edit by `findLastEditIndex`, never satisfies a
command pattern in `wasCommandRunAfter`, and removing it from the log
(positions being carried by the events themselves) changes neither
`checkCommands` nor `checkEnsureChanged`. -/
theorem C10_payloadless_inert (e : ToolEvent) (he1 : e.command = none)
    (he2 : e.filePath = none) (pre post : List ToolEvent)
    (m : String → Bool) (pats : List String) (i : Int) (sys : Sys)
    (check : Check) (configDir : String) :
    findLastEditIndex (pre ++ e :: post) m = findLastEditIndex (pre ++ post) m ∧
    wasCommandRunAfter (pre ++ e :: post) pats i =
      wasCommandRunAfter (pre ++ post) pats i ∧
    checkCommands check (pre ++ e :: post) i =
      checkCommands check (pre ++ post) i ∧
    checkEnsureChanged sys check (pre ++ e :: post) configDir =
      checkEnsureChanged sys check (pre ++ post) configDir := by
  have hme : matchesEdit m e = false := by simp [matchesEdit, he2]
  have hany : ∀ ps : List String, ∀ j : Int,
      wasCommandRunAfter (pre ++ e :: post) ps j =
        wasCommandRunAfter (pre ++ post) ps j := by
    intro ps j
    simp [wasCommandRunAfter, List.any_append, List.any_cons, he1]
  refine ⟨?_, hany pats i, ?_, ?_⟩
  · simp [findLastEditIndex, List.foldl_append, List.foldl_cons, hme]
  · have hfun : (fun command =>
        !wasCommandRunAfter (pre ++ e :: post) [command] i) = (fun command =>
        !wasCommandRunAfter (pre ++ post) [command] i) :=
      funext fun c => by rw [hany [c] i]
    simp only [checkCommands, hfun]
  · have hed : ((pre ++ e :: post).filter (fun ev =>
        ev.toolName == "Edit" || ev.toolName == "Write")).filterMap
          (·.filePath) =
        ((pre ++ post).filter (fun ev =>
          ev.toolName == "Edit" || ev.toolName == "Write")).filterMap
            (·.filePath) := by
      simp only [List.filter_append, List.filterMap_append, List.filter_cons]
      by_cases hg : (e.toolName == "Edit" || e.toolName == "Write") = true
      · simp [hg, List.filterMap_cons, he2]
      · simp [hg]
    simp only [checkEnsureChanged, hed]

/-- A system with an empty override directory (no filesystem entries at
all), XDG config home `/home/u/.config`. -/
def sysNoOverrides : Sys :=
  { cwd := "/", xdgConfigHome := "/home/u/.config", files := [],
    yamlPresets := [], yamlConfigs := [], minimatch := fun _ _ => false }

/-- C1 counterexample: the name `cargo` is present in the built-in
`PRESETS` table of presets.ts, yet `resolvePresets` fails with the
`preset not found` error when the override directory lacks it — the
claimed fallback to the in-process built-in table does not exist in
`resolvePresets`. -/
theorem C1_counterexample :
    (PRESETS.lookup "cargo").isSome = true ∧
    presetPath sysNoOverrides "cargo" =
      "/home/u/.config/rufio/presets/cargo.yaml" ∧
    resolvePresets sysNoOverrides ["cargo"] "/repo/rufio-hooks.yaml" =
      .error (presetNotFoundMsg "/repo/rufio-hooks.yaml" "cargo"
        "/home/u/.config/rufio/presets/cargo.yaml") :=
  ⟨rfl, rfl, rfl⟩

/-- C1 amended: `resolvePresets` processes names in declared order,
looking each name up only as a document in the user override directory;
on the first name whose override document is missing it fails with a
`preset not found` error naming the expected override path (the built-in
table of presets.ts is never consulted); otherwise the results are
concatenated in input order. -/
theorem C1_amended (sys : Sys) (names : List String) (configPath : String) :
    resolvePresets sys names configPath =
      match names.find? (fun n => (loadXdgPreset sys n).isNone) with
      | some n => .error (presetNotFoundMsg configPath n (presetPath sys n))
      | none =>
        .ok ((names.map (fun n => (loadXdgPreset sys n).getD [])).flatten) := by
  induction names with
  | nil => rfl
  | cons n rest ih =>
    cases hn : loadXdgPreset sys n with
    | none =>
      rw [List.find?_cons_of_pos _ (by simp [hn])]
      simp [resolvePresets, hn]
    | some cs =>
      rw [List.find?_cons_of_neg _ (by simp [hn])]
      simp only [resolvePresets, hn]
      rw [ih]
      cases hf : rest.find? (fun n => (loadXdgPreset sys n).isNone) with
      | some m => rfl
      | none => simp [hn, Except.map]

/-- A rule whose only obligation is the empty `ensure_commands` list. -/
def emptyCmdsCheck : Check :=
  { name := "x", when := { paths_changed := "**" },
    «then» := { ensure_commands := some [] } }

/-- C3 counterexample: a rule whose only obligation is the empty list
`ensure_commands: []` is accepted by `validateCheck` (an empty array is
truthy in JS), not rejected with the `MissingObligation` error as
claimed. -/
theorem C3_counterexample :
    validateCheck emptyCmdsCheck "/repo/rufio-hooks.yaml" = none ∧
    validateCheck emptyCmdsCheck "/repo/rufio-hooks.yaml" ≠
      some (missingObligationMsg "/repo/rufio-hooks.yaml" "x") :=
  ⟨rfl, by decide⟩

/-- C3 amended: validation checks in this fixed order and fails fast on
the first violation: name non-empty, then `when.paths_changed` non-empty,
then at least one obligation field present — where an empty list counts
as present — else `MissingObligation`, then not both obligation fields
present else `ConflictingObligation` (cannot have both); a rule whose
only obligation is an empty list is accepted. -/
theorem C3_amended (c : Check) (cp : String) :
    validateCheck c cp =
      if c.name = "" then some (missingNameMsg cp)
      else if c.when.paths_changed = "" then
        some (missingTriggerMsg cp c.name)
      else
        match c.«then».ensure_commands, c.«then».ensure_changed with
        | none, none => some (missingObligationMsg cp c.name)
        | some _, some _ => some (conflictingObligationMsg cp c.name)
        | _, _ => none := by
  by_cases h1 : c.name = ""
  · simp [validateCheck, h1]
  · by_cases h2 : c.when.paths_changed = ""
    · simp [validateCheck, h1, h2]
    · cases hec : c.«then».ensure_commands <;>
        cases hech : c.«then».ensure_changed <;>
        simp [validateCheck, truthyList, h1, h2, hec, hech]

/-- `findSome? id` distributes over list append, first hit wins. -/
theorem findSome?_id_append (l1 l2 : List (Option α)) :
    (l1 ++ l2).findSome? id =
      ((l1.findSome? id).rec (l2.findSome? id) fun v => some v : Option α) := by
  induction l1 with
  | nil => simp
  | cons a l ih =>
    cases a with
    | none => simpa using ih
    | some v => rfl

/-- The error of the rule loop is the first per-rule error in document
order. -/
theorem runChecksList_error (sys : Sys) (loaded : LoadedConfig)
    (changedFiles : List String) (toolEvents : List ToolEvent)
    (repoRoot : String) (cs : List Check) :
    (runChecksList sys loaded changedFiles toolEvents repoRoot cs).error =
      (cs.map (fun c => (runSingleCheck sys c loaded changedFiles toolEvents
        repoRoot).error)).findSome? id := by
  induction cs with
  | nil => rfl
  | cons c rest ih =>
    simp only [runChecksList, List.map_cons, List.findSome?_cons]
    cases hr : (runSingleCheck sys c loaded changedFiles toolEvents
        repoRoot).error with
    | some e => simp [hr]
    | none => simpa [hr] using ih

/-- The group loop returns the first per-rule error across the flattened
group-then-rule iteration order. -/
theorem runGroups_eq (sys : Sys) (toolEvents : List ToolEvent)
    (repoRoot : String) (groups : List (String × Group)) :
    runGroups sys toolEvents repoRoot groups =
      ((groups.map (fun g => g.2.loaded.config.checks.map
        (fun c => (runSingleCheck sys c g.2.loaded g.2.files toolEvents
          repoRoot).error))).flatten).findSome? id := by
  induction groups with
  | nil => rfl
  | cons g rest ih =>
    obtain ⟨k, gr⟩ := g
    simp only [runGroups, List.map_cons, List.flatten_cons]
    rw [findSome?_id_append]
    rw [show (runConfigChecks sys gr.loaded gr.files toolEvents
        repoRoot).error = (gr.loaded.config.checks.map
        (fun c => (runSingleCheck sys c gr.loaded gr.files toolEvents
          repoRoot).error)).findSome? id from
      runChecksList_error sys gr.loaded gr.files toolEvents repoRoot _]
    cases hf : (gr.loaded.config.checks.map
        (fun c => (runSingleCheck sys c gr.loaded gr.files toolEvents
          repoRoot).error)).findSome? id with
    | some e => rfl
    | none => simpa using ih

/-- C4: an evaluation over a set of config groups visits groups in
insertion order of the first file encountered and rules in document
order within each group, and returns exactly the first failing rule's
message (`findSome?` over the flattened per-rule errors): no later
rule's or group's outcome can influence the result, and at most one
failure message is produced per run. -/
theorem C4_first_failure (sys : Sys) (changedFiles : List String)
    (toolEvents : List ToolEvent) (repoRoot : String)
    (groups : List (String × Group))
    (h : groupFilesByConfig sys changedFiles repoRoot = .ok groups) :
    runChecks sys changedFiles toolEvents repoRoot =
      .ok (((groups.map (fun g => g.2.loaded.config.checks.map
        (fun c => (runSingleCheck sys c g.2.loaded g.2.files toolEvents
          repoRoot).error))).flatten).findSome? id) := by
  simp only [runChecks, h, bind, Except.bind, pure, Except.pure]
  rw [runGroups_eq]

/-- The directory and every ancestor of it, deepest first, ending at the
filesystem root, from the reversed segment list. -/
def dirChain : List String → List String
  | [] => ["/"]
  | s :: rest => renderRev (s :: rest) :: dirChain rest

/-- The config-discovery loop visits exactly the leading stretch of the
ancestor chain whose rendered path string starts with the resolved repo
root, and returns the config of the first visited directory containing
the config file. -/
theorem findNearestGo_eq (sys : Sys) (root : String) (revSegs : List String) :
    findNearestGo sys root revSegs =
      match ((dirChain revSegs).takeWhile
          (fun d => strStartsWith d root)).find?
          (fun d => existsSync sys (joinP d CONFIG_FILENAME)) with
      | none => .ok none
      | some d => (loadConfig sys (joinP d CONFIG_FILENAME)).map
          (fun c => some ⟨c, d, joinP d CONFIG_FILENAME⟩) := by
  induction revSegs with
  | nil =>
    simp only [findNearestGo, dirChain]
    by_cases h1 : strStartsWith "/" root
    · simp only [h1, if_true, List.takeWhile_cons, List.takeWhile_nil]
      by_cases h2 : existsSync sys (joinP "/" CONFIG_FILENAME)
      · simp [h1, h2]
      · simp [h1, h2]
    · simp [h1, List.takeWhile_cons]
  | cons s rest ih =>
    simp only [findNearestGo, dirChain]
    by_cases h1 : strStartsWith (renderRev (s :: rest)) root
    · simp only [h1, if_true, List.takeWhile_cons]
      by_cases h2 : existsSync sys (joinP (renderRev (s :: rest))
        CONFIG_FILENAME)
      · simp [h1, h2]
      · simp only [h1, h2, if_true, if_false]
        rw [ih]
        simp [h2]
    · simp [h1, List.takeWhile_cons]

/-- C8 amended: `findNearestConfig` starts at the file's directory and
ascends parent directories checking for the config filename, visiting
exactly those directories whose path string has the resolved boundary
root as a string prefix, and returns the first (deepest) visited
directory containing a config; it therefore never ascends above the
root, but — the boundary test being a string-prefix test — a sibling
directory whose name extends the root's path string (such as `/repo2`
for root `/repo`) is also visited, so a config outside the boundary
root can be returned; when no visited directory has a config the result
is none. -/
theorem C8_amended (sys : Sys) (filePath repoRoot : String) :
    (findNearestConfig sys filePath repoRoot =
      match ((dirChain ((splitSegs
          (resolveAbs sys.cwd filePath)).reverse.tail)).takeWhile
          (fun d => strStartsWith d (resolveAbs sys.cwd repoRoot))).find?
          (fun d => existsSync sys (joinP d CONFIG_FILENAME)) with
      | none => .ok none
      | some d => (loadConfig sys (joinP d CONFIG_FILENAME)).map
          (fun c => some ⟨c, d, joinP d CONFIG_FILENAME⟩)) ∧
    ∀ d ∈ (dirChain ((splitSegs
        (resolveAbs sys.cwd filePath)).reverse.tail)).takeWhile
        (fun d => strStartsWith d (resolveAbs sys.cwd repoRoot)),
      strStartsWith d (resolveAbs sys.cwd repoRoot) = true := by
  constructor
  · exact findNearestGo_eq sys (resolveAbs sys.cwd repoRoot) _
  · intro d hd
    exact List.mem_takeWhile_imp
      (p := fun x => strStartsWith x (resolveAbs sys.cwd repoRoot)) hd

/-- The single check used by the discovery counterexample. -/
def tsCheck : Check :=
  { name := "biome", when := { paths_changed := "**/*.ts" },
    «then» := { ensure_commands := some ["biome check"] } }

/-- A system holding a valid config file inside `/repo2` only. -/
def sysSibling : Sys :=
  { cwd := "/", xdgConfigHome := "/xdg", files := ["/repo2/rufio-hooks.yaml"],
    yamlPresets := [],
    yamlConfigs := [("/repo2/rufio-hooks.yaml",
      some { checks := some [tsCheck] })],
    minimatch := fun _ _ => false }

/-- The loaded config the counterexample run returns. -/
def siblingLoaded : LoadedConfig :=
  { config := { checks := [tsCheck] }, configDir := "/repo2",
    configPath := "/repo2/rufio-hooks.yaml" }

/-- C8 counterexample: with boundary root `/repo`, `findNearestConfig`
applied to a file under the sibling directory `/repo2` returns the
config found at `/repo2` — a directory that is neither the root nor a
descendant of it (the `startsWith` boundary test treats `/repo2` as
inside `/repo`), contradicting the claim that a config outside the
boundary root is never returned. -/
theorem C8_counterexample :
    findNearestConfig sysSibling "/repo2/a.ts" "/repo" =
      .ok (some siblingLoaded) ∧
    siblingLoaded.configDir ≠ "/repo" ∧
    strStartsWith siblingLoaded.configDir ("/repo" ++ "/") = false :=
  ⟨rfl, by decide, by decide⟩

/- ### Concrete witness scenario -/

/-- A concrete minimatch table sufficient for the witness scenario. -/
def mmW : String → String → Bool := fun p pat =>
  pat == "**/*.ts" && strIncludes p ".ts"

/-- Witness system: one valid config at `/repo`. -/
def sysW : Sys :=
  { cwd := "/w", xdgConfigHome := "/xdg", files := ["/repo/rufio-hooks.yaml"],
    yamlPresets := [],
    yamlConfigs := [("/repo/rufio-hooks.yaml",
      some { checks := some [tsCheck] })],
    minimatch := mmW }

/-- The loaded config of the witness scenario. -/
def loadedW : LoadedConfig :=
  { config := { checks := [tsCheck] }, configDir := "/repo",
    configPath := "/repo/rufio-hooks.yaml" }

/-- An Edit event touching the matching file. -/
def editW : ToolEvent :=
  { toolName := "Edit", filePath := some "/repo/file.ts", index := 0 }

/-- A Bash event running the required command after the edit. -/
def bashW : ToolEvent :=
  { toolName := "Bash", command := some "biome check --all", index := 1 }

/-- An Edit event touching the ensure_changed candidate path. -/
def editVW : ToolEvent :=
  { toolName := "Edit", filePath := some "/repo/version.toml", index := 2 }

/-- A rule gated on a path absent from the witness filesystem. -/
def gateCheck : Check :=
  { name := "cargo-version-bump",
    when := { paths_changed := "**/*.ts", path_exists := some "package.marker" },
    «then» := { ensure_changed := some ["version.toml"] } }

/-- A rule with an `ensure_changed` obligation. -/
def vbumpCheck : Check :=
  { name := "vbump", when := { paths_changed := "**/*.ts" },
    «then» := { ensure_changed := some ["version.toml"] } }

/-- A firing rule whose only obligation is the empty list. -/
def emptyCmdsTs : Check :=
  { name := "empty", when := { paths_changed := "**/*.ts" },
    «then» := { ensure_commands := some [] } }

/-- An event carrying a position but no payload at all. -/
def noneEvt : ToolEvent := { toolName := "Bash", index := 5 }

/-- The single group the witness scenario's files resolve to. -/
def groupsW : List (String × Group) :=
  [("/repo/rufio-hooks.yaml", ⟨loadedW, ["file.ts"]⟩)]

/-- Witness for C2 at the concrete biome scenario. -/
theorem C2_witness :
    ((runSingleCheck sysW tsCheck loadedW ["file.ts"] [editW, bashW]
        "/repo").error = none ↔
      ∀ pat ∈ ["biome check"], ∃ e ∈ [editW, bashW],
        e.toolName = "Bash" ∧ ∃ c, e.command = some c ∧ c ≠ "" ∧
          strIncludes c pat = true ∧ editW.index < e.index) ∧
    ((runSingleCheck sysW tsCheck loadedW ["file.ts"] [editW, bashW]
        "/repo").error ≠ none →
      (runSingleCheck sysW tsCheck loadedW ["file.ts"] [editW, bashW]
        "/repo").error = some (commandsErrMsg tsCheck
          (["biome check"].filter (fun pat =>
            !wasCommandRunAfter [editW, bashW] [pat] editW.index)))) :=
  C2_ensure_commands sysW tsCheck loadedW ["file.ts"] "/repo"
    ["biome check"] [] [bashW] editW rfl (by decide) rfl (by decide)
    (by decide) (by decide)

/-- Witness for C4 at the concrete biome scenario. -/
theorem C4_witness :
    runChecks sysW ["file.ts"] [editW, bashW] "/repo" =
      .ok (((groupsW.map (fun g => g.2.loaded.config.checks.map
        (fun c => (runSingleCheck sysW c g.2.loaded g.2.files
          [editW, bashW] "/repo").error))).flatten).findSome? id) :=
  C4_first_failure sysW ["file.ts"] [editW, bashW] "/repo" groupsW rfl

/-- Witness for C5: the gated rule is skipped when the marker is absent. -/
theorem C5_witness :
    (runSingleCheck sysW gateCheck loadedW ["file.ts"] [editW, bashW]
      "/repo").error = none :=
  C5_path_exists_gate sysW gateCheck loadedW ["file.ts"] [editW, bashW]
    "/repo" "package.marker" rfl (by decide) (by decide)

/-- Witness for C6 at the concrete version-bump scenario. -/
theorem C6_witness :
    ((runSingleCheck sysW vbumpCheck loadedW ["file.ts"] [editVW, editW]
        "/repo").error = none ↔
      ∃ p ∈ ["version.toml"], ∃ e ∈ [editVW, editW],
        (e.toolName = "Edit" ∨ e.toolName = "Write") ∧
        ∃ q, e.filePath = some q ∧ q ≠ "" ∧
          resolveAbs sysW.cwd q =
            resolve2 sysW.cwd loadedW.configDir p) ∧
    ((runSingleCheck sysW vbumpCheck loadedW ["file.ts"] [editVW, editW]
        "/repo").error ≠ none →
      runSingleCheck sysW vbumpCheck loadedW ["file.ts"] [editVW, editW]
        "/repo" = { error := some (changedErrMsg vbumpCheck
          ["version.toml"]), checkName := some vbumpCheck.name }) :=
  C6_ensure_changed sysW vbumpCheck loadedW ["file.ts"] [editVW, editW]
    "/repo" ["version.toml"] rfl (by decide) rfl rfl (by decide)

/-- Witness for C7: a session with no matching edit never fails the rule. -/
theorem C7_witness :
    (runSingleCheck sysW tsCheck loadedW ["file.ts"] [bashW]
      "/repo").error = none :=
  C7_no_session_edit sysW tsCheck loadedW ["file.ts"] [bashW] "/repo"
    (by decide) (by decide)

/-- Witness for C9 at the concrete scenario. -/
theorem C9_witness :
    (emptyCmdsTs.«then».ensure_commands = some [] →
      emptyCmdsTs.«then».ensure_changed = none →
      validateCheck emptyCmdsTs "/repo/rufio-hooks.yaml" = none ∧
      (runSingleCheck sysW emptyCmdsTs loadedW ["file.ts"] [editW, bashW]
        "/repo").error = none) ∧
    (emptyCmdsTs.«then».ensure_commands = none →
      emptyCmdsTs.«then».ensure_changed = some [] →
      validateCheck emptyCmdsTs "/repo/rufio-hooks.yaml" = none ∧
      runSingleCheck sysW emptyCmdsTs loadedW ["file.ts"] [editW, bashW]
        "/repo" =
        { error := some (changedErrMsg emptyCmdsTs []),
          checkName := some emptyCmdsTs.name }) :=
  C9_empty_obligations sysW emptyCmdsTs loadedW ["file.ts"] [editW, bashW]
    "/repo" "/repo/rufio-hooks.yaml" (by decide) (by decide) rfl (by decide)
    (by decide)

/-- Witness for C10 at a concrete payload-less event. -/
theorem C10_witness :
    findLastEditIndex ([editW] ++ noneEvt :: [bashW]) (fun _ => true) =
      findLastEditIndex ([editW] ++ [bashW]) (fun _ => true) ∧
    wasCommandRunAfter ([editW] ++ noneEvt :: [bashW]) ["x"] 0 =
      wasCommandRunAfter ([editW] ++ [bashW]) ["x"] 0 ∧
    checkCommands tsCheck ([editW] ++ noneEvt :: [bashW]) 0 =
      checkCommands tsCheck ([editW] ++ [bashW]) 0 ∧
    checkEnsureChanged sysW tsCheck ([editW] ++ noneEvt :: [bashW])
        "/repo" =
      checkEnsureChanged sysW tsCheck ([editW] ++ [bashW]) "/repo" :=
  C10_payloadless_inert noneEvt rfl rfl [editW] [bashW] (fun _ => true)
    ["x"] 0 sysW tsCheck "/repo"

end Rufio
